import Mathlib

/-!
Verification of the mika BitTorrent tracker core against its specification.

The Go source is shallowly embedded: byte strings are `List Nat` (each
element a byte value), machine integers are `Nat` with explicit bounds where
overflow or width matters, timestamps are `Nat` (unix seconds), fallible
operations return `Except`, and the redis-backed key/value stores are
association lists in insertion order.
-/

deriving instance DecidableEq for Except

namespace Mika

/-- Bytes of a Go string: the byte values of the string, modelled through the
character codes (the inputs of interest are byte strings). -/
def strBytes (s : String) : List Nat :=
  s.toList.map Char.toNat

/-- `model.PeerIDFromString` (model package): Go declares `var buf [20]byte`
(zero initialised) and runs `copy(buf[:], s)`, which copies the first
`min(len(s), 20)` bytes of `s` over the zero buffer. A `PeerID` is the
resulting 20-byte buffer, embedded as its list of byte values. -/
def PeerIDFromString (s : List Nat) : List Nat :=
  s.take 20 ++ (List.replicate 20 0).drop (min s.length 20)

/-- Peer identifiers, as produced by `PeerIDFromString`. -/
abbrev PeerID := List Nat

/-- IP addresses as used by the tracker: either an IPv4 address (four byte
values) or a non-IPv4 address (`net.IP` whose `To4()` method returns nil). -/
inductive IPAddr where
  | v4 (a b c d : Nat)
  | v6 (label : Nat)
  deriving DecidableEq, Repr

/-- `net.IP.To4`: the four address bytes for an IPv4 address, `none` (Go nil)
otherwise. -/
def IPAddr.to4 : IPAddr → Option (List Nat)
  | .v4 a b c d => some [a, b, c, d]
  | .v6 _ => none

/-- The announce event reported by a client. `announceType` in the http
package; the constants `STARTED`, `STOPPED`, `COMPLETED` appear in the
handler, and an empty/unrecognised value is a regular announce. -/
inductive AnnounceEvent where
  | started
  | stopped
  | completed
  | regular
  deriving DecidableEq, Repr

/-- `model.Peer` (model package), restricted to the fields the announce
handler and the stores touch. Machine-width numeric fields are `Nat`;
timestamps are unix seconds as `Nat`. -/
structure Peer where
  UserID : Nat := 0
  UserPeerID : Nat := 0
  SpeedUP : Nat := 0
  SpeedDN : Nat := 0
  SpeedUPMax : Nat := 0
  SpeedDNMax : Nat := 0
  Uploaded : Nat := 0
  Downloaded : Nat := 0
  Left : Nat := 0
  Announces : Nat := 0
  TotalTime : Nat := 0
  IP : IPAddr := .v4 0 0 0 0
  Port : Nat := 0
  AnnounceLast : Nat := 0
  AnnounceFirst : Nat := 0
  PeerID : PeerID := []
  Location : Nat := 0
  CreatedOn : Nat := 0
  UpdatedOn : Nat := 0
  deriving DecidableEq, Repr

/-- A swarm: the ordered sequence of peers of one torrent, as handed to
`makeCompactPeers` (`model.Swarm`). -/
abbrev Swarm := List Peer

/-- The two port bytes Go writes: `[]byte{byte(peer.Port >> 8), byte(peer.Port & 0xff)}`.
Go's `byte(x)` truncates to the low 8 bits. -/
def portBytes (port : Nat) : List Nat :=
  [(port / 256) % 256, port % 256]

/-- The bytes `buf.Write(peer.IP.To4())` appends: the four address bytes for
an IPv4 peer; for a non-IPv4 peer `To4()` is nil and `Write` appends nothing. -/
def ipWriteBytes (ip : IPAddr) : List Nat :=
  match ip.to4 with
  | some bs => bs
  | none => []

/-- `makeCompactPeers` (http package): for each peer of the swarm whose
`PeerID` differs from `skipID`, append `IP.To4()` then the two port bytes. -/
def makeCompactPeers (peers : Swarm) (skipID : PeerID) : List Nat :=
  match peers with
  | [] => []
  | peer :: rest =>
      if peer.PeerID = skipID then
        makeCompactPeers rest skipID
      else
        ipWriteBytes peer.IP ++ portBytes peer.Port ++ makeCompactPeers rest skipID

/-- Decode a compact peer byte string into (ip bytes, port) pairs, reading
consecutive 6-byte groups: four address bytes then a big-endian port. -/
def decodeCompact : List Nat → List (List Nat × Nat)
  | a :: b :: c :: d :: hi :: lo :: rest => ([a, b, c, d], hi * 256 + lo) :: decodeCompact rest
  | _ => []

/-! ## Query parsing (`newAnnounce` and its helpers, http package) -/

/-- A parsed query string: key/value pairs as produced by `queryStringParser`
(the `Params` map of the `query` type). -/
abbrev Query := List (String × String)

/-- `q.Params[key]` with the two-result form `value, exists`. -/
def queryLookup (q : Query) (k : String) : Option String :=
  (q.find? (fun kv => kv.1 = k)).map (fun kv => kv.2)

/-- `q.Params[key]` with plain map indexing, which in Go yields the zero
value `""` when the key is absent (used at the `parseAnnounceType` call). -/
def queryIndex (q : Query) (k : String) : String :=
  (queryLookup q k).getD ""

/-- Parse a non-empty all-digit character list as a decimal number. -/
def parseDecimalAux : List Char → Nat → Option Nat
  | [], acc => some acc
  | c :: rest, acc =>
      if 48 ≤ c.toNat ∧ c.toNat ≤ 57 then parseDecimalAux rest (acc * 10 + (c.toNat - 48))
      else none

/-- Unsigned decimal parsing in the manner of Go's `strconv.ParseUint`:
digits only, the empty string is an error. -/
def parseDecimal (s : String) : Option Nat :=
  match s.toList with
  | [] => none
  | cs => parseDecimalAux cs 0

/-- Modelled from the spec: the `query` type's numeric accessors
(`Uint16`/`Uint32`/`Uint64`/`Uint`) are not under src/. Parse the value of
`key` as an unsigned decimal of the given bit width, failing when the key is
absent, the value is not a decimal number, or it exceeds the width. -/
def queryUintW (q : Query) (k : String) (width : Nat) : Option Nat :=
  (queryLookup q k).bind
    (fun s => (parseDecimal s).bind (fun n => if n < 2 ^ width then some n else none))

/-- `getUint16Key`: the parsed value (through `util.UMax16 0`, the identity
on naturals) or the default when parsing failed. -/
def getUint16Key (q : Query) (k : String) (dflt : Nat) : Nat :=
  match queryUintW q k 16 with
  | some v => max 0 v
  | none => dflt

/-- `getUint32Key`, as `getUint16Key` at width 32. -/
def getUint32Key (q : Query) (k : String) (dflt : Nat) : Nat :=
  match queryUintW q k 32 with
  | some v => max 0 v
  | none => dflt

/-- `getUintKey`, as `getUint16Key` at the width of Go's `uint` (64). -/
def getUintKey (q : Query) (k : String) (dflt : Nat) : Nat :=
  match queryUintW q k 64 with
  | some v => max 0 v
  | none => dflt

/-- Modelled from the spec: `parseAnnounceType` is not under src/. The
`event` key "maps to started, completed, or stopped (or empty, which is the
same as not being present)"; any other value is a regular announce. -/
def parseAnnounceType (s : String) : AnnounceEvent :=
  if s = "started" then .started
  else if s = "stopped" then .stopped
  else if s = "completed" then .completed
  else .regular

/-- Torrent identifiers: 20-byte info hashes, embedded as byte lists. -/
abbrev InfoHash := List Nat

/-- Modelled from the spec: `model.InfoHashFromString` is not under src/; an
`InfoHash` is a 20-byte identifier built from the raw query value the same
way `PeerIDFromString` builds a `PeerID`. -/
def InfoHashFromString (s : List Nat) : InfoHash :=
  PeerIDFromString s

/-- The tracker error codes (`trackerErrCode` values) `newAnnounce` and
`announce` can answer with, plus the disabled-torrent response that carries
the torrent's `Reason` text. -/
inductive TrackerErr where
  | malformedRequest
  | invalidInfoHash
  | invalidPeerID
  | invalidPort
  | genericError
  | torrentReason (reason : String)
  deriving DecidableEq, Repr

/-- `announceRequest` (http package): the parsed announce. -/
structure AnnounceRequest where
  Compact : Bool := true
  Corrupt : Nat := 0
  Downloaded : Nat := 0
  Event : AnnounceEvent := .regular
  IP : IPAddr := .v4 0 0 0 0
  InfoHash : InfoHash := []
  Left : Nat := 0
  NumWant : Nat := 0
  PeerID : PeerID := []
  Port : Nat := 0
  Uploaded : Nat := 0
  deriving DecidableEq, Repr

/-- `newAnnounce` (http package, lines 145-187): parse the query into an
`announceRequest` or a `trackerErrCode`. The input is the already parsed
query (`queryStringParser` is not under src/); `ipRes` is the outcome of
`getIP(q, c)` (also not under src/), `none` standing for its error. The
event is read from the `numwant` parameter (`q.Params[paramNumWant]`),
exactly as the source does. -/
def newAnnounce (q : Query) (ipRes : Option IPAddr) : Except TrackerErr AnnounceRequest :=
  match queryLookup q "info_hash" with
  | none => .error .invalidInfoHash
  | some infoHash =>
    match queryLookup q "peer_id" with
    | none => .error .invalidPeerID
    | some peerID =>
      match ipRes with
      | none => .error .malformedRequest
      | some ipv4 =>
        let port := getUint16Key q "port" 0
        if port < 1024 ∨ port > 65535 then .error .invalidPort
        else
          let left := getUint32Key q "left" 0
          let downloaded := getUint32Key q "downloaded" 0
          let uploaded := getUint32Key q "uploaded" 0
          let corrupt := getUint32Key q "corrupt" 0
          let event := parseAnnounceType (queryIndex q "numwant")
          let numWant := getUintKey q "numwant" 30
          .ok { Compact := true
                Corrupt := corrupt
                Downloaded := downloaded
                Event := event
                IP := ipv4
                InfoHash := InfoHashFromString (strBytes infoHash)
                Left := left
                NumWant := numWant
                PeerID := PeerIDFromString (strBytes peerID)
                Port := port
                Uploaded := uploaded }

/-! ## Stores

The peer store is an association list from (info hash, peer id) keys to
peers, in insertion order. `lookupKV`/`setKV`/`delKV` give the map
semantics shared by the drivers: lookup of the first matching key,
replacement in place (or append when fresh), and removal of the key.
-/

/-- Look up the first entry with the given key. -/
def lookupKV {K V : Type} [DecidableEq K] (l : List (K × V)) (k : K) : Option V :=
  match l with
  | [] => none
  | (k₀, v₀) :: rest => if k₀ = k then some v₀ else lookupKV rest k

/-- Replace the first entry with the given key, or append a fresh entry. -/
def setKV {K V : Type} [DecidableEq K] (l : List (K × V)) (k : K) (v : V) : List (K × V) :=
  match l with
  | [] => [(k, v)]
  | (k₀, v₀) :: rest => if k₀ = k then (k, v) :: rest else (k₀, v₀) :: setKV rest k v

/-- Remove every entry with the given key. -/
def delKV {K V : Type} [DecidableEq K] (l : List (K × V)) (k : K) : List (K × V) :=
  l.filter (fun kv => kv.1 ≠ k)

/-- The peer store state: swarm membership keyed by (info hash, peer id).
Modelled from the spec: the in-memory `PeerStore` driver consumed by the
handler is not under src/ (the redis driver's `GetPeer` is unimplemented);
§4.1 gives its contract — `Get` returns the peer or NotFound, `Add` inserts,
`Delete` removes membership, `GetN` returns up to `limit` peers of the
swarm. -/
abbrev PeerStore := List ((InfoHash × PeerID) × Peer)

/-- `PeerStore.GetPeer`: the peer stored under (ih, pid), if any. -/
def getPeer (st : PeerStore) (ih : InfoHash) (pid : PeerID) : Option Peer :=
  lookupKV st (ih, pid)

/-- `PeerStore.GetPeers(ih, limit)`: up to `limit` peers of the swarm of
`ih`, in store order (the redis driver walks the matching keys and stops at
`limit`). -/
def getNPeers (st : PeerStore) (ih : InfoHash) (limit : Nat) : Swarm :=
  ((st.filter (fun kv => kv.1.1 = ih)).map (fun kv => kv.2)).take limit

/-- Modelled from the spec: `Swarm.Counts` is not under src/; it returns
(seeders, leechers) where a seeder is a peer with `Left == 0`. -/
def swarmCounts (sw : Swarm) : Nat × Nat :=
  (sw.countP (fun p => p.Left = 0), sw.countP (fun p => p.Left ≠ 0))

/-- Modelled from the spec: `model.NewPeer(userID, peerID, ip, port)` is not
under src/; §4.4 has the handler "construct new Peer with
`AnnounceFirst = AnnounceLast = now`, `CreatedOn = now`", counters zero. -/
def newPeer (userID : Nat) (pid : PeerID) (ip : IPAddr) (port : Nat) (now : Nat) : Peer :=
  { UserID := userID
    PeerID := pid
    IP := ip
    Port := port
    AnnounceFirst := now
    AnnounceLast := now
    CreatedOn := now }

/-- `model.Torrent`, restricted to the fields the handler and the torrent
store touch. The float64 multipliers carry no arithmetic in the code under
study (only storage and comparison), so they are embedded as rationals. -/
structure Torrent where
  TorrentID : Nat := 0
  ReleaseName : String := ""
  InfoHash : InfoHash := []
  TotalCompleted : Nat := 0
  TotalUploaded : Nat := 0
  TotalDownloaded : Nat := 0
  IsDeleted : Bool := false
  IsEnabled : Bool := true
  Reason : String := ""
  MultiUp : ℚ := 1
  MultiDn : ℚ := 1
  CreatedOn : Nat := 0
  UpdatedOn : Nat := 0
  deriving DecidableEq, Repr

/-- The tracker fields the announce handler reads. -/
structure Tracker where
  maxPeers : Nat := 100
  annInterval : Nat := 30
  annIntervalMin : Nat := 10
  deriving DecidableEq, Repr

/-- The bencoded announce response dictionary the handler assembles:
`complete`, `incomplete`, `interval`, `min interval`, and the compact
`peers` byte string. -/
structure AnnResponse where
  complete : Nat := 0
  incomplete : Nat := 0
  interval : Nat := 0
  minInterval : Nat := 0
  peers : List Nat := []
  deriving DecidableEq, Repr

/-- `BitTorrentHandler.announce` (http package, lines 190-277), from the
point where the user is resolved and the request parsed: validate the
torrent, fetch or create the peer (writing through the stored pointer),
apply the unconditional mutation block (`Uploaded`, `Downloaded`,
`Announces++`, `Left`, `UpdatedOn = now`), dispatch the event
(`completed` bumps `TotalCompleted`; `stopped` deletes the peer), read up to
`MaxPeers` peers of the swarm, and assemble the response. The store
operations of the in-memory driver never fail, so the handler's
`msgGenericError` paths do not arise in the model. -/
def announce (t : Tracker) (tor : Torrent) (st : PeerStore) (usrID : Nat)
    (req : AnnounceRequest) (now : Nat) :
    Except TrackerErr (PeerStore × Torrent × AnnResponse) :=
  if tor.IsDeleted then .error .invalidInfoHash
  else if ¬tor.IsEnabled ∧ tor.Reason ≠ "" then .error (.torrentReason tor.Reason)
  else
    let key := (tor.InfoHash, req.PeerID)
    let peer0 :=
      match lookupKV st key with
      | some p => p
      | none => newPeer usrID req.PeerID req.IP req.Port now
    let st1 :=
      match lookupKV st key with
      | some _ => st
      | none => setKV st key peer0
    let peer1 := { peer0 with
                   Uploaded := req.Uploaded
                   Downloaded := req.Downloaded
                   Announces := peer0.Announces + 1
                   Left := req.Left
                   UpdatedOn := now }
    let st2 := setKV st1 key peer1
    let tor1 := if req.Event = .completed then
                  { tor with TotalCompleted := tor.TotalCompleted + 1 }
                else tor
    let st3 := if req.Event = .stopped then delKV st2 key else st2
    let swarm := getNPeers st3 tor.InfoHash t.maxPeers
    let counts := swarmCounts swarm
    .ok (st3, tor1,
         { complete := counts.1
           incomplete := counts.2
           interval := t.annInterval
           minInterval := t.annIntervalMin
           peers := makeCompactPeers swarm peer1.PeerID })

/-- The peer-store effect of one announce: the store after `announce`, the
store unchanged on a handler error. -/
def announceStep (t : Tracker) (tor : Torrent) (usrID : Nat)
    (st : PeerStore) (rn : AnnounceRequest × Nat) : PeerStore :=
  match announce t tor st usrID rn.1 rn.2 with
  | .ok (st', _, _) => st'
  | .error _ => st

/-- Fold a sequence of (request, timestamp) announces over the store. -/
def runAnnounces (t : Tracker) (tor : Torrent) (usrID : Nat)
    (st : PeerStore) (rns : List (AnnounceRequest × Nat)) : PeerStore :=
  List.foldl (announceStep t tor usrID) st rns

/-! ## The redis-backed drivers (`store/redis/redis.go`)

Redis hashes written by `HSet` are embedded as records of the fields the
driver writes; the `util.*To*`/`*ToString` serialisation pairs used by the
driver are mutually inverse on the values the writer produces, so a field
holds the written value directly. The keys `t:<ih>` and `p:<ih>:<pid>` are
embedded as the pairs they encode.
-/

/-- Store-level errors from the `consts` package used by the drivers. -/
inductive StoreErr where
  | notFound
  | invalidInfoHash
  deriving DecidableEq, Repr

/-- The torrent hash `AddTorrent` writes. `info_hash` is optional because a
bare `HSet` on an absent key (the soft-delete path) creates a hash carrying
only the written field; `GetTorrent` tests precisely whether `info_hash` is
present. -/
structure TorrentHash where
  torrent_id : Nat := 0
  release_name : String := ""
  total_completed : Nat := 0
  total_downloaded : Nat := 0
  total_uploaded : Nat := 0
  reason : String := ""
  multi_up : ℚ := 0
  multi_dn : ℚ := 0
  info_hash : Option InfoHash := none
  is_deleted : Bool := false
  is_enabled : Bool := false
  created_on : Nat := 0
  updated_on : Nat := 0
  deriving DecidableEq, Repr

/-- The redis torrent store: torrent hashes keyed by info hash. -/
abbrev RedisTorrentStore := List (InfoHash × TorrentHash)

/-- `TorrentStore.AddTorrent` (redis driver, lines 42-62): write every field
of the torrent into its hash, the multipliers exactly as supplied. -/
def redisAddTorrent (st : RedisTorrentStore) (t : Torrent) : RedisTorrentStore :=
  setKV st t.InfoHash
    { torrent_id := t.TorrentID
      release_name := t.ReleaseName
      total_completed := t.TotalCompleted
      total_downloaded := t.TotalDownloaded
      total_uploaded := t.TotalUploaded
      reason := t.Reason
      multi_up := t.MultiUp
      multi_dn := t.MultiDn
      info_hash := some t.InfoHash
      is_deleted := t.IsDeleted
      is_enabled := t.IsEnabled
      created_on := t.CreatedOn
      updated_on := t.UpdatedOn }

/-- `TorrentStore.DeleteTorrent` (redis driver, lines 66-71): drop the key
when `dropRow`, otherwise `HSet` only `is_deleted = 1` (creating a hash with
just that field when the key was absent). -/
def redisDeleteTorrent (st : RedisTorrentStore) (t : Torrent) (dropRow : Bool) :
    RedisTorrentStore :=
  if dropRow then delKV st t.InfoHash
  else
    match lookupKV st t.InfoHash with
    | some h => setKV st t.InfoHash { h with is_deleted := true }
    | none => setKV st t.InfoHash { is_deleted := true }

/-- `TorrentStore.GetTorrent` (redis driver, lines 74-100): `HGetAll`, then
`ErrInvalidInfoHash` exactly when the `info_hash` field is absent; otherwise
rebuild the torrent from the stored fields — including `IsDeleted` as
stored, with no deleted check. -/
def redisGetTorrent (st : RedisTorrentStore) (ih : InfoHash) : Except StoreErr Torrent :=
  match lookupKV st ih with
  | none => .error .invalidInfoHash
  | some h =>
    match h.info_hash with
    | none => .error .invalidInfoHash
    | some raw =>
      .ok { TorrentID := h.torrent_id
            ReleaseName := h.release_name
            InfoHash := InfoHashFromString raw
            TotalCompleted := h.total_completed
            TotalUploaded := h.total_uploaded
            TotalDownloaded := h.total_downloaded
            IsDeleted := h.is_deleted
            IsEnabled := h.is_enabled
            Reason := h.reason
            MultiUp := h.multi_up
            MultiDn := h.multi_dn
            CreatedOn := h.created_on
            UpdatedOn := h.updated_on }

/-- The peer hash `AddPeer` writes (redis driver, lines 113-139), fields
named as the writer names them. -/
structure PeerHash where
  user_peer_id : Nat := 0
  speed_up : Nat := 0
  speed_dn : Nat := 0
  speed_up_max : Nat := 0
  speed_dn_max : Nat := 0
  total_uploaded : Nat := 0
  total_downloaded : Nat := 0
  total_left : Nat := 0
  total_announces : Nat := 0
  total_time : Nat := 0
  addr_ip : IPAddr := .v4 0 0 0 0
  addr_port : Nat := 0
  last_announce : Nat := 0
  first_announce : Nat := 0
  peer_id : List Nat := []
  location : Nat := 0
  user_id : Nat := 0
  created_on : Nat := 0
  updated_on : Nat := 0
  deriving DecidableEq, Repr

/-- The redis peer store: peer hashes keyed by (info hash, peer id). -/
abbrev RedisPeerStore := List ((InfoHash × PeerID) × PeerHash)

/-- The hash `PeerStore.AddPeer` writes for a peer: every field from the
peer, `speed_up_max` from `SpeedUPMax` and `speed_dn_max` from `SpeedDNMax`. -/
def addPeerHash (p : Peer) : PeerHash :=
  { user_peer_id := p.UserPeerID
    speed_up := p.SpeedUP
    speed_dn := p.SpeedDN
    speed_up_max := p.SpeedUPMax
    speed_dn_max := p.SpeedDNMax
    total_uploaded := p.Uploaded
    total_downloaded := p.Downloaded
    total_left := p.Left
    total_announces := p.Announces
    total_time := p.TotalTime
    addr_ip := p.IP
    addr_port := p.Port
    last_announce := p.AnnounceLast
    first_announce := p.AnnounceFirst
    peer_id := p.PeerID
    location := p.Location
    user_id := p.UserID
    created_on := p.CreatedOn
    updated_on := p.UpdatedOn }

/-- `PeerStore.AddPeer` (redis driver, lines 113-139). -/
def redisAddPeer (st : RedisPeerStore) (ih : InfoHash) (p : Peer) : RedisPeerStore :=
  setKV st (ih, p.PeerID) (addPeerHash p)

/-- The peer `GetPeers` rebuilds from a stored hash (redis driver, lines
191-211): note `SpeedUPMax` is read from `speed_dn_max` and `SpeedDNMax`
from `speed_up_max`, and `peer_id` goes through `PeerIDFromString`. -/
def readPeerHash (h : PeerHash) : Peer :=
  { UserPeerID := h.user_peer_id
    SpeedUP := h.speed_up
    SpeedDN := h.speed_dn
    SpeedUPMax := h.speed_dn_max
    SpeedDNMax := h.speed_up_max
    Uploaded := h.total_uploaded
    Downloaded := h.total_downloaded
    Left := h.total_left
    Announces := h.total_announces
    TotalTime := h.total_time
    IP := h.addr_ip
    Port := h.addr_port
    AnnounceLast := h.last_announce
    AnnounceFirst := h.first_announce
    PeerID := PeerIDFromString h.peer_id
    Location := h.location
    UserID := h.user_id
    CreatedOn := h.created_on
    UpdatedOn := h.updated_on }

/-- `PeerStore.GetPeers` (redis driver, lines 181-215): walk the keys of the
torrent's swarm, stopping at `limit`, and rebuild each peer. -/
def redisGetPeers (st : RedisPeerStore) (ih : InfoHash) (limit : Nat) : List Peer :=
  (((st.filter (fun kv => kv.1.1 = ih)).map (fun kv => readPeerHash kv.2))).take limit

/-- `PeerStore.DeletePeer` (redis driver, lines 172-174): a bare redis `DEL`
of the peer key. `DEL` of an absent key deletes nothing and reports no error
(it answers a count), so the call succeeds whether or not the peer exists. -/
def redisDeletePeer (st : RedisPeerStore) (ih : InfoHash) (p : Peer) :
    Except StoreErr Unit × RedisPeerStore :=
  (.ok (), delKV st (ih, p.PeerID))

/-! ## Association-list lemmas -/

theorem lookupKV_setKV_self {K V : Type} [DecidableEq K] (l : List (K × V)) (k : K) (v : V) :
    lookupKV (setKV l k v) k = some v := by
  induction l with
  | nil => simp [setKV, lookupKV]
  | cons hd tl ih =>
    obtain ⟨k₀, v₀⟩ := hd
    by_cases h : k₀ = k
    · simp [setKV, h, lookupKV]
    · simp [setKV, h, lookupKV, ih]

theorem setKV_setKV {K V : Type} [DecidableEq K] (l : List (K × V)) (k : K) (v w : V) :
    setKV (setKV l k v) k w = setKV l k w := by
  induction l with
  | nil => simp [setKV]
  | cons hd tl ih =>
    obtain ⟨k₀, v₀⟩ := hd
    by_cases h : k₀ = k
    · simp [setKV, h]
    · simp [setKV, h, ih]

theorem lookupKV_delKV_self {K V : Type} [DecidableEq K] (l : List (K × V)) (k : K) :
    lookupKV (delKV l k) k = none := by
  induction l with
  | nil => simp [delKV, lookupKV]
  | cons hd tl ih =>
    obtain ⟨k₀, v₀⟩ := hd
    by_cases h : k₀ = k
    · simpa [delKV, List.filter_cons, h] using ih
    · simpa [delKV, List.filter_cons, h, lookupKV] using ih

theorem delKV_delKV {K V : Type} [DecidableEq K] (l : List (K × V)) (k : K) :
    delKV (delKV l k) k = delKV l k := by
  simp [delKV, List.filter_filter]

/-! ## C10 — `PeerIDFromString` truncates and zero-pads -/

/-- C10: for every input byte string `s`, `PeerIDFromString` returns the 20
bytes consisting of the first `min(|s|, 20)` bytes of `s` followed by zero
bytes; longer inputs are silently truncated, two inputs agreeing on their
first 20 bytes map to the same `PeerID`, and shorter inputs are zero-padded
rather than rejected. -/
theorem C10_peerIDFromString_truncate_pad (s u : List Nat) :
    PeerIDFromString s = s.take 20 ++ List.replicate (20 - min s.length 20) 0
    ∧ (PeerIDFromString s).length = 20
    ∧ (s.take 20 = u.take 20 → PeerIDFromString s = PeerIDFromString u) := by
  refine ⟨?_, ?_, ?_⟩
  · unfold PeerIDFromString
    rw [List.drop_replicate]
  · unfold PeerIDFromString
    simp
    omega
  · intro h
    have hlen : min s.length 20 = min u.length 20 := by
      have := congrArg List.length h
      simp [List.length_take] at this
      omega
    unfold PeerIDFromString
    rw [h, hlen]

/-- C10 witness: a 25-byte input and a 21-byte input agreeing on their first
20 bytes yield equal peer ids. -/
theorem C10_peerIDFromString_truncate_pad_witness :
    (List.replicate 25 1).take 20 = ((List.replicate 20 1).append [9]).take 20
    ∧ PeerIDFromString (List.replicate 25 1) = PeerIDFromString ((List.replicate 20 1).append [9]) :=
  ⟨by decide,
   (C10_peerIDFromString_truncate_pad (List.replicate 25 1)
     ((List.replicate 20 1).append [9])).2.2 (by decide)⟩

/-! ## C7 — `DeletePeer` idempotence and its result -/

def c7IH : InfoHash := List.replicate 20 4

def c7Peer : Peer := { PeerID := List.replicate 20 5 }

def c7St : RedisPeerStore := redisAddPeer [] c7IH c7Peer

/-- C7 counterexample: after a successful delete of a stored peer, a second
`DeletePeer` for the same (info hash, peer) succeeds with no error — it does
not return the `NotFound` error the claim requires. -/
theorem C7_second_delete_is_ok_not_notFound :
    (redisDeletePeer (redisDeletePeer c7St c7IH c7Peer).2 c7IH c7Peer).1 = .ok ()
    ∧ (redisDeletePeer (redisDeletePeer c7St c7IH c7Peer).2 c7IH c7Peer).1
        ≠ .error StoreErr.notFound :=
  ⟨rfl, by simp [redisDeletePeer]⟩

/-- C7 amended: `DeletePeer` removes the peer's swarm membership and is
idempotent, and a second delete after a successful delete again succeeds
with no error (redis `DEL` of an absent key reports no error); it does not
return `NotFound`. -/
theorem C7_redisDeletePeer_idempotent (st : RedisPeerStore) (ih : InfoHash) (p : Peer) :
    (redisDeletePeer st ih p).1 = .ok ()
    ∧ lookupKV (redisDeletePeer st ih p).2 (ih, p.PeerID) = none
    ∧ (redisDeletePeer (redisDeletePeer st ih p).2 ih p).1 = .ok ()
    ∧ (redisDeletePeer (redisDeletePeer st ih p).2 ih p).2 = (redisDeletePeer st ih p).2 :=
  ⟨rfl, lookupKV_delKV_self st (ih, p.PeerID), rfl, delKV_delKV st (ih, p.PeerID)⟩

/-! ## C8 — `MultiDn` is not clamped on write -/

def c8Torrent : Torrent := { InfoHash := List.replicate 20 3, MultiUp := 1, MultiDn := -1 }

/-- C8 counterexample: `AddTorrent` with `MultiDn = -1` stores `-1` in the
torrent hash, so a stored torrent can have `MultiDn < 0`; no clamp happens
before the write. -/
theorem C8_negative_multiDn_stored :
    (lookupKV (redisAddTorrent [] c8Torrent) c8Torrent.InfoHash).map TorrentHash.multi_dn
      = some (-1)
    ∧ ((-1 : ℚ) < 0) :=
  ⟨rfl, by norm_num⟩

/-- C8 amended: the redis `AddTorrent` stores both `MultiDn` and `MultiUp`
exactly as supplied, with no clamping, so a stored torrent may carry
`MultiDn < 0`; the clamp to 0 observed in the API test happens outside this
driver. -/
theorem C8_redisAddTorrent_stores_multipliers_verbatim
    (st : RedisTorrentStore) (t : Torrent) :
    (lookupKV (redisAddTorrent st t) t.InfoHash).map TorrentHash.multi_dn = some t.MultiDn
    ∧ (lookupKV (redisAddTorrent st t) t.InfoHash).map TorrentHash.multi_up = some t.MultiUp := by
  unfold redisAddTorrent
  rw [lookupKV_setKV_self]
  exact ⟨rfl, rfl⟩

/-! ## C9 — the `GetPeers` speed-max field swap -/

/-- A 20-byte peer id reads back unchanged through `PeerIDFromString`. -/
theorem peerIDFromString_of_length_20 (s : List Nat) (h : s.length = 20) :
    PeerIDFromString s = s := by
  unfold PeerIDFromString
  rw [List.take_of_length_le (by omega), h]
  simp [List.drop_replicate]

/-- C9: in the redis peer store, a peer written with `AddPeer` and read back
with `GetPeers` comes back with `SpeedUPMax` and `SpeedDNMax` swapped — the
returned `SpeedUPMax` is the stored `speed_dn_max` and the returned
`SpeedDNMax` the stored `speed_up_max` — while every other field the reader
touches is preserved. -/
theorem C9_getPeers_swaps_speed_max (ih : InfoHash) (p : Peer) (lim : Nat)
    (h20 : p.PeerID.length = 20) (hlim : 1 ≤ lim) :
    redisGetPeers (redisAddPeer [] ih p) ih lim = [readPeerHash (addPeerHash p)]
    ∧ readPeerHash (addPeerHash p)
        = { p with SpeedUPMax := p.SpeedDNMax, SpeedDNMax := p.SpeedUPMax } := by
  constructor
  · obtain ⟨m, rfl⟩ : ∃ m, lim = m + 1 := ⟨lim - 1, by omega⟩
    simp [redisGetPeers, redisAddPeer, setKV, List.filter_cons]
  · simp [readPeerHash, addPeerHash, peerIDFromString_of_length_20 p.PeerID h20]

def c9IH : InfoHash := List.replicate 20 6

def c9Peer : Peer := { PeerID := List.replicate 20 8, SpeedUPMax := 11, SpeedDNMax := 22, Uploaded := 5 }

/-- C9 witness: the round trip at a concrete peer with distinct speed-max
values. -/
theorem C9_getPeers_swaps_speed_max_witness :
    (c9Peer.PeerID.length = 20 ∧ 1 ≤ 3)
    ∧ (redisGetPeers (redisAddPeer [] c9IH c9Peer) c9IH 3 = [readPeerHash (addPeerHash c9Peer)]
       ∧ readPeerHash (addPeerHash c9Peer)
           = { c9Peer with SpeedUPMax := c9Peer.SpeedDNMax, SpeedDNMax := c9Peer.SpeedUPMax }) :=
  ⟨⟨by decide, by decide⟩, C9_getPeers_swaps_speed_max c9IH c9Peer 3 (by decide) (by decide)⟩

/-! ## C6 — `GetTorrent` does not check `IsDeleted` -/

def c6Torrent : Torrent := { InfoHash := List.replicate 20 2 }

def c6Store : RedisTorrentStore :=
  redisDeleteTorrent (redisAddTorrent [] c6Torrent) c6Torrent false

/-- C6: the redis `GetTorrent` on a torrent whose hash carries
`is_deleted = 1` (stored by `AddTorrent`, then soft-deleted by
`DeleteTorrent`) returns the torrent successfully with `IsDeleted = true`
instead of the `InvalidInfoHash` error the claim — and the repo's own
`TestTorrentUpdate` — require; only a missing `info_hash` field produces the
error. -/
theorem C6_getTorrent_returns_deleted_torrent :
    redisGetTorrent c6Store c6Torrent.InfoHash = .ok { c6Torrent with IsDeleted := true }
    ∧ redisGetTorrent c6Store c6Torrent.InfoHash ≠ .error StoreErr.invalidInfoHash
    ∧ redisGetTorrent [] c6Torrent.InfoHash = .error StoreErr.invalidInfoHash := by
  refine ⟨by decide, ?_, by decide⟩
  intro h
  rw [show redisGetTorrent c6Store c6Torrent.InfoHash
        = .ok { c6Torrent with IsDeleted := true } from by decide] at h
  exact Except.noConfusion h

/-! ## C5 — the announce port check -/

/-- C5: once the query has `info_hash` and `peer_id` and the IP resolved,
`newAnnounce` rejects with `InvalidPort` exactly when the parsed port (the
value of `getUint16Key q "port" 0`, which is 0 for a missing or unparsable
port key) is outside 1024–65535; in-range ports never trigger the port
rejection. -/
theorem C5_port_check (q : Query) (ip : IPAddr)
    (hih : queryLookup q "info_hash" ≠ none)
    (hpid : queryLookup q "peer_id" ≠ none) :
    newAnnounce q (some ip) = .error .invalidPort
      ↔ ¬(1024 ≤ getUint16Key q "port" 0 ∧ getUint16Key q "port" 0 ≤ 65535) := by
  obtain ⟨ihv, hihv⟩ := Option.ne_none_iff_exists'.mp hih
  obtain ⟨pv, hpv⟩ := Option.ne_none_iff_exists'.mp hpid
  unfold newAnnounce
  rw [hihv, hpv]
  by_cases hport : getUint16Key q "port" 0 < 1024 ∨ getUint16Key q "port" 0 > 65535
  · simp only [if_pos hport]
    simp
    omega
  · simp only [if_neg hport]
    simp
    omega

def c5QueryPort80 : Query :=
  [("info_hash", "aaaaaaaaaaaaaaaaaaaa"), ("peer_id", "bbbbbbbbbbbbbbbbbbbb"), ("port", "80")]

def c5QueryNoPort : Query :=
  [("info_hash", "aaaaaaaaaaaaaaaaaaaa"), ("peer_id", "bbbbbbbbbbbbbbbbbbbb")]

def c5QueryPort6881 : Query :=
  [("info_hash", "aaaaaaaaaaaaaaaaaaaa"), ("peer_id", "bbbbbbbbbbbbbbbbbbbb"), ("port", "6881")]

/-- C5 witness: `port=80` and a missing port key are rejected with
`InvalidPort`; `port=6881` is not. -/
theorem C5_port_check_witness :
    (queryLookup c5QueryPort80 "info_hash" ≠ none ∧ queryLookup c5QueryPort80 "peer_id" ≠ none)
    ∧ newAnnounce c5QueryPort80 (some (.v4 1 2 3 4)) = .error .invalidPort
    ∧ newAnnounce c5QueryNoPort (some (.v4 1 2 3 4)) = .error .invalidPort
    ∧ newAnnounce c5QueryPort6881 (some (.v4 1 2 3 4)) ≠ .error .invalidPort :=
  ⟨⟨by decide, by decide⟩,
   (C5_port_check c5QueryPort80 (.v4 1 2 3 4) (by decide) (by decide)).mpr (by decide),
   (C5_port_check c5QueryNoPort (.v4 1 2 3 4) (by decide) (by decide)).mpr (by decide),
   fun h => absurd ((C5_port_check c5QueryPort6881 (.v4 1 2 3 4) (by decide) (by decide)).mp h)
     (by decide)⟩

/-! ## C3 — the compact peer byte string -/

/-- Whether an address is IPv4 (whether `To4()` is non-nil). -/
def IPAddr.isV4 : IPAddr → Bool
  | .v4 _ _ _ _ => true
  | .v6 _ => false

theorem makeCompactPeers_length (peers : Swarm) (skip : PeerID) :
    (makeCompactPeers peers skip).length =
      6 * peers.countP (fun p => !decide (p.PeerID = skip) && p.IP.isV4)
      + 2 * peers.countP (fun p => !decide (p.PeerID = skip) && !p.IP.isV4) := by
  induction peers with
  | nil => simp [makeCompactPeers]
  | cons p rest ih =>
    by_cases h : p.PeerID = skip
    · simp [makeCompactPeers, h, List.countP_cons, ih]
    · cases hip : p.IP with
      | v4 a b c d =>
        simp [makeCompactPeers, h, hip, ipWriteBytes, IPAddr.to4, portBytes, IPAddr.isV4,
              List.countP_cons, ih]
        ring
      | v6 lbl =>
        simp [makeCompactPeers, h, hip, ipWriteBytes, IPAddr.to4, portBytes, IPAddr.isV4,
              List.countP_cons, ih]
        ring

theorem decodeCompact_makeCompactPeers (peers : Swarm) (skip : PeerID)
    (hports : ∀ p ∈ peers, p.Port < 65536)
    (hv4 : ∀ p ∈ peers, p.IP.isV4 = true) :
    decodeCompact (makeCompactPeers peers skip) =
      (peers.filter (fun p => !decide (p.PeerID = skip))).map
        (fun p => (ipWriteBytes p.IP, p.Port)) := by
  induction peers with
  | nil => rfl
  | cons p rest ih =>
    have hport : p.Port < 65536 := hports p (by simp)
    have hrest : ∀ x ∈ rest, x.Port < 65536 := fun x hx => hports x (by simp [hx])
    have hv4p : p.IP.isV4 = true := hv4 p (by simp)
    have hv4rest : ∀ x ∈ rest, x.IP.isV4 = true := fun x hx => hv4 x (by simp [hx])
    by_cases h : p.PeerID = skip
    · simp [makeCompactPeers, h, List.filter_cons, ih hrest hv4rest]
    · cases hip : p.IP with
      | v4 a b c d =>
        simp [makeCompactPeers, h, hip, ipWriteBytes, IPAddr.to4, portBytes,
              decodeCompact, List.filter_cons, ih hrest hv4rest]
        omega
      | v6 lbl => rw [hip] at hv4p; exact absurd hv4p (by simp [IPAddr.isV4])

/-- C3 counterexample: a swarm holding one non-IPv4 peer (and no IPv4 peer)
yields a 2-byte `peers` value — the peer's two port bytes — not the 0 bytes
the claim's `6 × |ipv4 peers|` law requires: a non-IPv4 peer does contribute
bytes. -/
theorem C3_v6_peer_contributes_port_bytes :
    makeCompactPeers [{ PeerID := List.replicate 20 7, IP := .v6 0, Port := 6881 }]
        (List.replicate 20 9) = [26, 225]
    ∧ ([26, 225] : List Nat).length ≠ 6 * 0 :=
  ⟨by decide, by decide⟩

/-- C3 amended: each IPv4 peer other than the requester contributes exactly
its 6-byte entry, but a non-IPv4 peer contributes its two port bytes (its
nil `To4()` writes no address bytes), so the length is
`6·|ipv4 non-self peers| + 2·|non-ipv4 non-self peers|`; when every peer of
the swarm is IPv4, decoding the 6-byte groups recovers exactly the IP bytes
and ports of the non-requesting peers in order — in particular the
requesting peer's entry never appears. -/
theorem C3_compact_layout (peers : Swarm) (skip : PeerID)
    (hports : ∀ p ∈ peers, p.Port < 65536) :
    ((makeCompactPeers peers skip).length =
      6 * peers.countP (fun p => !decide (p.PeerID = skip) && p.IP.isV4)
      + 2 * peers.countP (fun p => !decide (p.PeerID = skip) && !p.IP.isV4))
    ∧ ((∀ p ∈ peers, p.IP.isV4 = true) →
        decodeCompact (makeCompactPeers peers skip) =
          (peers.filter (fun p => !decide (p.PeerID = skip))).map
            (fun p => (ipWriteBytes p.IP, p.Port))) :=
  ⟨makeCompactPeers_length peers skip,
   fun hv4 => decodeCompact_makeCompactPeers peers skip hports hv4⟩

def c3PeerA : Peer := { PeerID := List.replicate 20 1, IP := .v4 10 0 0 1, Port := 6881 }

def c3PeerB : Peer := { PeerID := List.replicate 20 2, IP := .v4 10 0 0 2, Port := 51413 }

def c3Self : Peer := { PeerID := List.replicate 20 3, IP := .v4 10 0 0 3, Port := 6883 }

/-- C3 witness: an all-IPv4 swarm of two other peers plus the requester
produces 12 bytes decoding back to the two other peers' addresses. -/
theorem C3_compact_layout_witness :
    (∀ p ∈ [c3PeerA, c3PeerB, c3Self], p.Port < 65536)
    ∧ (((makeCompactPeers [c3PeerA, c3PeerB, c3Self] c3Self.PeerID).length =
        6 * ([c3PeerA, c3PeerB, c3Self].countP
              (fun p => !decide (p.PeerID = c3Self.PeerID) && p.IP.isV4))
        + 2 * ([c3PeerA, c3PeerB, c3Self].countP
              (fun p => !decide (p.PeerID = c3Self.PeerID) && !p.IP.isV4)))
       ∧ ((∀ p ∈ [c3PeerA, c3PeerB, c3Self], p.IP.isV4 = true) →
           decodeCompact (makeCompactPeers [c3PeerA, c3PeerB, c3Self] c3Self.PeerID) =
             ([c3PeerA, c3PeerB, c3Self].filter
                 (fun p => !decide (p.PeerID = c3Self.PeerID))).map
               (fun p => (ipWriteBytes p.IP, p.Port)))) :=
  ⟨by decide, C3_compact_layout [c3PeerA, c3PeerB, c3Self] c3Self.PeerID (by decide)⟩

/-! ## C4 — the peer-list limit -/

/-- The claim's reading of the handler, stated from the spec's words: as
`announce`, except that the peer list is requested with
`min(req.NumWant, MaxPeers)` rather than `MaxPeers`. For comparison with
`announce` only. -/
def announceSpecNumWant (t : Tracker) (tor : Torrent) (st : PeerStore) (usrID : Nat)
    (req : AnnounceRequest) (now : Nat) :
    Except TrackerErr (PeerStore × Torrent × AnnResponse) :=
  if tor.IsDeleted then .error .invalidInfoHash
  else if ¬tor.IsEnabled ∧ tor.Reason ≠ "" then .error (.torrentReason tor.Reason)
  else
    let key := (tor.InfoHash, req.PeerID)
    let peer0 :=
      match lookupKV st key with
      | some p => p
      | none => newPeer usrID req.PeerID req.IP req.Port now
    let st1 :=
      match lookupKV st key with
      | some _ => st
      | none => setKV st key peer0
    let peer1 := { peer0 with
                   Uploaded := req.Uploaded
                   Downloaded := req.Downloaded
                   Announces := peer0.Announces + 1
                   Left := req.Left
                   UpdatedOn := now }
    let st2 := setKV st1 key peer1
    let tor1 := if req.Event = .completed then
                  { tor with TotalCompleted := tor.TotalCompleted + 1 }
                else tor
    let st3 := if req.Event = .stopped then delKV st2 key else st2
    let swarm := getNPeers st3 tor.InfoHash (min req.NumWant t.maxPeers)
    let counts := swarmCounts swarm
    .ok (st3, tor1,
         { complete := counts.1
           incomplete := counts.2
           interval := t.annInterval
           minInterval := t.annIntervalMin
           peers := makeCompactPeers swarm peer1.PeerID })

def c4IH : InfoHash := List.replicate 20 10

def c4PeerA : Peer := { PeerID := List.replicate 20 11, IP := .v4 10 0 0 1, Port := 6881 }

def c4PeerB : Peer := { PeerID := List.replicate 20 12, IP := .v4 10 0 0 2, Port := 6882 }

def c4Self : Peer := { PeerID := List.replicate 20 13, IP := .v4 10 0 0 3, Port := 6883 }

def c4St : PeerStore :=
  [((c4IH, c4PeerA.PeerID), c4PeerA), ((c4IH, c4PeerB.PeerID), c4PeerB),
   ((c4IH, c4Self.PeerID), c4Self)]

def c4Tor : Torrent := { InfoHash := c4IH }

def c4Req : AnnounceRequest :=
  { PeerID := c4Self.PeerID, IP := .v4 10 0 0 3, Port := 6883, NumWant := 1 }

/-- C4 counterexample: with `NumWant = 1` and `MaxPeers = 100` over a
three-peer swarm, the handler answers differently from the claim's
`min(NumWant, MaxPeers)` reading — the handler requests `MaxPeers` peers and
returns both other peers, not at most `min(1, 100) = 1`. -/
theorem C4_numWant_not_used :
    announce ({} : Tracker) c4Tor c4St 1 c4Req 100
      ≠ announceSpecNumWant ({} : Tracker) c4Tor c4St 1 c4Req 100 := by decide

/-- C4 amended: the handler requests `MaxPeers` peers from the store
regardless of the request — its outcome is invariant under changing
`req.NumWant` — while parsing does give `NumWant` the default 30 when the
`numwant` key is absent (and applies no cap, the value being unused). -/
theorem C4_maxPeers_always_requested (t : Tracker) (tor : Torrent) (st : PeerStore)
    (usrID : Nat) (req : AnnounceRequest) (now n : Nat) (q : Query) (ip : IPAddr)
    (r : AnnounceRequest)
    (hr : newAnnounce q (some ip) = .ok r)
    (hnw : queryLookup q "numwant" = none) :
    announce t tor st usrID { req with NumWant := n } now = announce t tor st usrID req now
    ∧ r.NumWant = 30 := by
  refine ⟨rfl, ?_⟩
  simp only [newAnnounce] at hr
  split at hr
  · exact Except.noConfusion hr
  split at hr
  · exact Except.noConfusion hr
  split at hr
  · exact Except.noConfusion hr
  injection hr with h4
  rw [← h4]
  simp [getUintKey, queryUintW, hnw]

def c4Query : Query :=
  [("info_hash", "aaaaaaaaaaaaaaaaaaaa"), ("peer_id", "bbbbbbbbbbbbbbbbbbbb"), ("port", "2000")]

def c4Parsed : AnnounceRequest :=
  (newAnnounce c4Query (some (.v4 1 2 3 4))).toOption.getD {}

/-- C4 witness: a query without `numwant` parses with `NumWant = 30`, and a
concrete announce is unchanged when `NumWant` is overwritten. -/
theorem C4_maxPeers_always_requested_witness :
    (newAnnounce c4Query (some (.v4 1 2 3 4)) = .ok c4Parsed
     ∧ queryLookup c4Query "numwant" = none)
    ∧ (announce ({} : Tracker) c4Tor c4St 1 { c4Req with NumWant := 5 } 100
         = announce ({} : Tracker) c4Tor c4St 1 c4Req 100
       ∧ c4Parsed.NumWant = 30) :=
  ⟨⟨by decide, by decide⟩,
   C4_maxPeers_always_requested ({} : Tracker) c4Tor c4St 1 c4Req 100 5 c4Query
     (.v4 1 2 3 4) c4Parsed (by decide) (by decide)⟩

/-! ## C2 — `event=stopped` handling -/

def c2Query : Query :=
  [("info_hash", "aaaaaaaaaaaaaaaaaaaa"), ("peer_id", "bbbbbbbbbbbbbbbbbbbb"),
   ("port", "6881"), ("uploaded", "1"), ("downloaded", "2"), ("left", "3"),
   ("event", "stopped")]

def c2IH : InfoHash := InfoHashFromString (strBytes "aaaaaaaaaaaaaaaaaaaa")

def c2PID : PeerID := PeerIDFromString (strBytes "bbbbbbbbbbbbbbbbbbbb")

def c2Peer : Peer := newPeer 1 c2PID (.v4 10 0 0 1) 6881 50

def c2Tor : Torrent := { InfoHash := c2IH }

def c2St : PeerStore := [((c2IH, c2PID), c2Peer)]

def c2Parsed : AnnounceRequest :=
  (newAnnounce c2Query (some (.v4 10 0 0 1))).toOption.getD {}

/-- C2: a well-formed announce query carrying `event=stopped` (and no
`numwant` key) parses with `Event = regular`, because `newAnnounce` reads
the event from the `numwant` parameter — so handling the request leaves the
existing peer in the store instead of deleting it, against the claim. The
event dispatch itself is sound: forcing `Event = stopped` on the same
request does delete the peer, a later `GetPeer` finds nothing, and the
handler still answers with a response. -/
theorem C2_stopped_event_read_from_numwant :
    newAnnounce c2Query (some (.v4 10 0 0 1)) = .ok c2Parsed
    ∧ c2Parsed.Event = .regular
    ∧ c2Parsed.Event ≠ .stopped
    ∧ getPeer (announceStep ({} : Tracker) c2Tor 1 c2St (c2Parsed, 100)) c2IH c2PID ≠ none
    ∧ getPeer (announceStep ({} : Tracker) c2Tor 1 c2St
        ({ c2Parsed with Event := .stopped }, 100)) c2IH c2PID = none
    ∧ (announce ({} : Tracker) c2Tor c2St 1 { c2Parsed with Event := .stopped } 100).isOk
        = true := by
  refine ⟨by decide, by decide, by decide, by decide, by decide, by decide⟩

/-! ## C1 — announce counters and `AnnounceLast` -/

def c1IH : InfoHash := List.replicate 20 14

def c1PID : PeerID := List.replicate 20 15

def c1Tor : Torrent := { InfoHash := c1IH }

def c1Req : AnnounceRequest := { PeerID := c1PID, IP := .v4 10 0 0 9, Port := 6881, Left := 5 }

def c1Final : PeerStore :=
  runAnnounces ({} : Tracker) c1Tor 1 [] [(c1Req, 100), (c1Req, 200)]

/-- C1 counterexample: after two announces at times 100 and 200 (the first
creating the peer), the peer's `AnnounceLast` is still 100 — the creation
time — not the timestamp 200 of the last announce the claim requires: the
handler's mutation block never writes `AnnounceLast` (only `UpdatedOn`). -/
theorem C1_announceLast_stays_at_creation :
    (getPeer c1Final c1IH c1PID).map Peer.AnnounceLast = some 100
    ∧ (getPeer c1Final c1IH c1PID).map Peer.UpdatedOn = some 200
    ∧ (100 : Nat) ≠ 200 :=
  ⟨by decide, by decide, by decide⟩

/-- The handler's store effect on an announce that finds the peer: write the
mutated peer back through the stored pointer. -/
theorem announceStep_existing (t : Tracker) (tor : Torrent) (usrID : Nat) (st : PeerStore)
    (req : AnnounceRequest) (now : Nat) (p : Peer)
    (hdel : tor.IsDeleted = false)
    (hen : tor.IsEnabled = true ∨ tor.Reason = "")
    (hget : lookupKV st (tor.InfoHash, req.PeerID) = some p)
    (hev : req.Event ≠ .stopped) :
    announceStep t tor usrID st (req, now)
      = setKV st (tor.InfoHash, req.PeerID)
          { p with Uploaded := req.Uploaded, Downloaded := req.Downloaded,
                   Announces := p.Announces + 1, Left := req.Left, UpdatedOn := now } := by
  rcases hen with hen | hen
  · simp [announceStep, announce, hdel, hen, hget, hev]
  · simp [announceStep, announce, hdel, hen, hget, hev]

/-- The handler's store effect on an announce that creates the peer:
`AddPeer` the fresh peer, then write the mutation through the pointer. -/
theorem announceStep_new (t : Tracker) (tor : Torrent) (usrID : Nat) (st : PeerStore)
    (req : AnnounceRequest) (now : Nat)
    (hdel : tor.IsDeleted = false)
    (hen : tor.IsEnabled = true ∨ tor.Reason = "")
    (hget : lookupKV st (tor.InfoHash, req.PeerID) = none)
    (hev : req.Event ≠ .stopped) :
    announceStep t tor usrID st (req, now)
      = setKV st (tor.InfoHash, req.PeerID)
          { newPeer usrID req.PeerID req.IP req.Port now with
            Uploaded := req.Uploaded, Downloaded := req.Downloaded,
            Announces := 1, Left := req.Left, UpdatedOn := now } := by
  rcases hen with hen | hen
  · simp [announceStep, announce, hdel, hen, hget, hev, setKV_setKV, newPeer]
  · simp [announceStep, announce, hdel, hen, hget, hev, setKV_setKV, newPeer]

/-- Over any run of non-`stopped` announces for one (info hash, peer id),
starting from a store that already holds the peer: `Announces` grows by one
per announce, `AnnounceFirst` and `AnnounceLast` never change, and
`UpdatedOn` tracks the timestamp of the last announce. -/
theorem runAnnounces_accumulate (t : Tracker) (tor : Torrent) (usrID : Nat) (pid : PeerID)
    (rns : List (AnnounceRequest × Nat)) :
    ∀ (st : PeerStore) (p : Peer),
      tor.IsDeleted = false →
      (tor.IsEnabled = true ∨ tor.Reason = "") →
      lookupKV st (tor.InfoHash, pid) = some p →
      (∀ rn ∈ rns, rn.1.PeerID = pid ∧ rn.1.Event ≠ AnnounceEvent.stopped) →
      (lookupKV (runAnnounces t tor usrID st rns) (tor.InfoHash, pid)).map
          (fun x => (x.Announces, x.AnnounceFirst, x.AnnounceLast, x.UpdatedOn))
        = some (p.Announces + rns.length, p.AnnounceFirst, p.AnnounceLast,
                List.foldl (fun _ rn => rn.2) p.UpdatedOn rns) := by
  induction rns with
  | nil =>
    intro st p _ _ hget _
    simp [runAnnounces, hget]
  | cons rn rest ih =>
    intro st p hdel hen hget hall
    obtain ⟨r, now⟩ := rn
    obtain ⟨hpid, hev⟩ := hall (r, now) (by simp)
    have hget' : lookupKV st (tor.InfoHash, r.PeerID) = some p := by rw [hpid]; exact hget
    have hstep := announceStep_existing t tor usrID st r now p hdel hen hget' hev
    have hrest : ∀ x ∈ rest, x.1.PeerID = pid ∧ x.1.Event ≠ AnnounceEvent.stopped :=
      fun x hx => hall x (by simp [hx])
    have hnext : lookupKV (setKV st (tor.InfoHash, r.PeerID)
        { p with Uploaded := r.Uploaded, Downloaded := r.Downloaded,
                 Announces := p.Announces + 1, Left := r.Left, UpdatedOn := now })
        (tor.InfoHash, pid)
        = some { p with Uploaded := r.Uploaded, Downloaded := r.Downloaded,
                        Announces := p.Announces + 1, Left := r.Left, UpdatedOn := now } := by
      rw [← hpid]
      exact lookupKV_setKV_self st (tor.InfoHash, r.PeerID) _
    have := ih (setKV st (tor.InfoHash, r.PeerID)
        { p with Uploaded := r.Uploaded, Downloaded := r.Downloaded,
                 Announces := p.Announces + 1, Left := r.Left, UpdatedOn := now })
        { p with Uploaded := r.Uploaded, Downloaded := r.Downloaded,
                 Announces := p.Announces + 1, Left := r.Left, UpdatedOn := now }
        hdel hen hnext hrest
    simp only [runAnnounces, List.foldl_cons] at this ⊢
    rw [hstep]
    rw [this]
    simp
    omega

/-- C1 amended: for a run of announces for one (info hash, peer id) with no
`stopped` event, the first of which creates the peer, the final `Announces`
equals the total number of announces — the handler increments it on every
announce, the creating one included — while `AnnounceLast` (like
`AnnounceFirst`) keeps the creation timestamp forever: the handler never
writes `AnnounceLast`; it is `UpdatedOn` that carries the timestamp of the
last announce. -/
theorem C1_announce_counters (t : Tracker) (tor : Torrent) (usrID : Nat) (pid : PeerID)
    (st0 : PeerStore) (r1 : AnnounceRequest) (t1 : Nat)
    (rest : List (AnnounceRequest × Nat))
    (hdel : tor.IsDeleted = false)
    (hen : tor.IsEnabled = true ∨ tor.Reason = "")
    (h0 : lookupKV st0 (tor.InfoHash, pid) = none)
    (hall : ∀ rn ∈ (r1, t1) :: rest, rn.1.PeerID = pid ∧ rn.1.Event ≠ AnnounceEvent.stopped) :
    (getPeer (runAnnounces t tor usrID st0 ((r1, t1) :: rest)) tor.InfoHash pid).map
        (fun x => (x.Announces, x.AnnounceFirst, x.AnnounceLast, x.UpdatedOn))
      = some (rest.length + 1, t1, t1, List.foldl (fun _ rn => rn.2) t1 rest) := by
  obtain ⟨hpid, hev⟩ := hall (r1, t1) (by simp)
  have h0' : lookupKV st0 (tor.InfoHash, r1.PeerID) = none := by rw [hpid]; exact h0
  have hstep := announceStep_new t tor usrID st0 r1 t1 hdel hen h0' hev
  have hrest : ∀ x ∈ rest, x.1.PeerID = pid ∧ x.1.Event ≠ AnnounceEvent.stopped :=
    fun x hx => hall x (by simp [hx])
  have hnext : lookupKV (setKV st0 (tor.InfoHash, r1.PeerID)
      { newPeer usrID r1.PeerID r1.IP r1.Port t1 with
        Uploaded := r1.Uploaded, Downloaded := r1.Downloaded,
        Announces := 1, Left := r1.Left, UpdatedOn := t1 })
      (tor.InfoHash, pid)
      = some { newPeer usrID r1.PeerID r1.IP r1.Port t1 with
               Uploaded := r1.Uploaded, Downloaded := r1.Downloaded,
               Announces := 1, Left := r1.Left, UpdatedOn := t1 } := by
    rw [← hpid]
    exact lookupKV_setKV_self st0 (tor.InfoHash, r1.PeerID) _
  have hrun := runAnnounces_accumulate t tor usrID pid rest
      (setKV st0 (tor.InfoHash, r1.PeerID)
        { newPeer usrID r1.PeerID r1.IP r1.Port t1 with
          Uploaded := r1.Uploaded, Downloaded := r1.Downloaded,
          Announces := 1, Left := r1.Left, UpdatedOn := t1 })
      { newPeer usrID r1.PeerID r1.IP r1.Port t1 with
        Uploaded := r1.Uploaded, Downloaded := r1.Downloaded,
        Announces := 1, Left := r1.Left, UpdatedOn := t1 }
      hdel hen hnext hrest
  unfold getPeer
  simp only [runAnnounces, List.foldl_cons] at hrun ⊢
  rw [hstep]
  rw [hrun]
  simp [newPeer]
  omega

/-- C1 witness: two announces at times 100 then 200 end with
`Announces = 2`, `AnnounceFirst = AnnounceLast = 100`, `UpdatedOn = 200`. -/
theorem C1_announce_counters_witness :
    (c1Tor.IsDeleted = false ∧ lookupKV ([] : PeerStore) (c1Tor.InfoHash, c1PID) = none
     ∧ (∀ rn ∈ [(c1Req, 100), (c1Req, 200)],
          rn.1.PeerID = c1PID ∧ rn.1.Event ≠ AnnounceEvent.stopped))
    ∧ (getPeer (runAnnounces ({} : Tracker) c1Tor 1 [] [(c1Req, 100), (c1Req, 200)])
          c1Tor.InfoHash c1PID).map
        (fun x => (x.Announces, x.AnnounceFirst, x.AnnounceLast, x.UpdatedOn))
      = some (2, 100, 100, 200) :=
  ⟨⟨by decide, by decide, by decide⟩,
   C1_announce_counters ({} : Tracker) c1Tor 1 c1PID [] c1Req 100 [(c1Req, 200)]
     (by decide) (Or.inl (by decide)) (by decide) (by decide)⟩

end Mika
